import Mathlib

/-
Verification of the document-analysis pipeline of
`src/app/services/document_parser.py` (model-server repository).

The pipeline is embedded shallowly:
* image blobs are opaque values (`Blob := Nat`);
* the external vision-model service (`model_interactor.get_model_response`)
  is an explicit parameter `svc : String → List Blob → Except String String`
  (prompt, images) — a raised exception becomes `.error`;
* the nondeterministic completion order of the thread-pool futures
  (`as_completed`) is an explicit parameter `order`, a permutation of the
  submitted task list; the per-unit `defaultdict` lists are recovered as the
  completion-order sublist of each unit's settled tasks;
* every call made to the model service is recorded in a call log so that
  "no model calls", "exactly one merge call" and "one summarization call"
  are provable statements.
-/

namespace DocumentParser

/-- Opaque image bytes (`bytes` blobs are never inspected by the pipeline). -/
abbrev Blob := Nat

/-- The external model service: prompt and image batch to either a response
string or the message of the raised exception. -/
abbrev Svc := String → List Blob → Except String String

/-- Python `sep.join(parts)`. -/
def pyJoin (sep : String) : List String → String
  | [] => ""
  | [a] => a
  | a :: rest => a ++ sep ++ pyJoin sep rest

/-- Python `s.strip()` (leading and trailing whitespace removed; the inputs
arising here only ever carry ASCII whitespace at the ends, which
`Char.isWhitespace` covers). -/
def pyStrip (s : String) : String :=
  String.mk (((s.data.dropWhile Char.isWhitespace).reverse.dropWhile Char.isWhitespace).reverse)

/-- The loop body of `_add_separators_for_non_ascii`, on the character list,
carrying the running `non_ascii_counter`.  `new_parts` is flattened to the
character level (Python joins the single characters and the inserted
`"\n----\n"` strings with `"".join`). -/
def addSepGo (limit : Nat) : List Char → Nat → List Char
  | [], _ => []
  | c :: rest, non_ascii_counter =>
    if 128 ≤ c.toNat then
      if limit ≤ non_ascii_counter + 1 then
        c :: ("\n----\n".data ++ addSepGo limit rest 0)
      else
        c :: addSepGo limit rest (non_ascii_counter + 1)
    else
      c :: addSepGo limit rest 0

/-- `_add_separators_for_non_ascii(text, limit)` from the source (the pipeline
always uses the default `limit = 2000`). -/
def _add_separators_for_non_ascii (text : String) (limit : Nat) : String :=
  String.mk (addSepGo limit text.data 0)

/-- The `DocumentUnit` TypedDict. -/
structure DocumentUnit where
  unit_identifier : String
  text : String
  images : List Blob
deriving DecidableEq, Repr

/-- `_chunk_list(data, size)` with explicit fuel so that the recursion is
structural (each step consumes at least one element when `size ≠ 0`, so
`fuel = data.length` always suffices; see `_chunk_list_cons` for the
resulting Python-shaped unfolding `data[i:i+size]`). -/
def chunkListFuel (size : Nat) : Nat → List Blob → List (List Blob)
  | _, [] => []
  | 0, _ :: _ => []
  | fuel + 1, a :: rest =>
    if size = 0 then []
    else (a :: rest).take size :: chunkListFuel size fuel ((a :: rest).drop size)

/-- `_chunk_list(data, size)`: consecutive slices `data[i:i+size]`.
The source only ever calls it with `size = 8`; `size = 0` (which would raise
in Python's `range`) is mapped to the empty list to keep the function total. -/
def _chunk_list (data : List Blob) (size : Nat) : List (List Blob) :=
  chunkListFuel size data.length data

/-- The `(unit_identifier, chunk_index)` pair attached to each submitted task. -/
structure TaskInfo where
  unit_identifier : String
  chunk_index : Nat
deriving DecidableEq, Repr

/-- One analysis task: the prompt and image chunk passed to
`model_interactor.get_model_response`, tagged with its `task_info`. -/
structure AnalysisTask where
  prompt : String
  images : List Blob
  info : TaskInfo
deriving DecidableEq, Repr

/-- Which call site of `document_parser.py` issued a model call: the
executor fan-out, the stage-2 aggregation call, or the final summarization. -/
inductive CallSite where
  | analysis
  | merge
  | summarize
deriving DecidableEq, Repr

/-- One recorded call to the model service. -/
structure ModelCall where
  site : CallSite
  prompt : String
  images : List Blob
deriving DecidableEq, Repr

/-- The pipeline's observable outcome: the returned report string together
with the log of model calls it issued. -/
structure PipeOut where
  report : String
  calls : List ModelCall
deriving DecidableEq, Repr

def DIRECT_ANALYSIS_PROMPT : String :=
  "你是一个专业的图像分析助手。请详细描述我提供给你的这一批图片的内容。你的描述应该客观、详尽，并使用Markdown格式。不要做任何与图片无关的推断。"

/-- `STAGE1_PROMPT_TEMPLATE.format(unit_identifier=…, text=…, image_count=…)`. -/
def stage1Prompt (unit_identifier text : String) (image_count : Nat) : String :=
  "你是一个专业的文档分析助手。任务是结合我提供的“页面文字”和一组“页面上的图片”，生成对这个页面**当前批次内容**的综合性描述。你的分析应专注于当前提供的信息，并使用Markdown格式排版。尽可能保留原有的所有文字。如果你觉得图片与文字无关，那么请直接输出文字和你对图片的描述。\n\n---\n**"
    ++ unit_identifier ++ "的文字**:\n" ++ text ++ "\n---\n**"
    ++ unit_identifier ++ "的图片** (本批次共" ++ toString image_count
    ++ "张):\n[图片内容已提供，请开始分析]"

/-- `STAGE2_AGGREGATION_PROMPT.format(unit_identifier=…, combined_analyses=…)`. -/
def stage2Prompt (unit_identifier combined_analyses : String) : String :=
  "你是一个高级内容编辑。你收到了针对【同一个文档页面/单元】的几份独立分析报告，这是因为该页面的图片过多被分批处理了。你的任务是将这些分散的、描述同一页面的报告，合并成一份最终的、连贯的、完整的分析。\n\n请严格遵循以下规则：\n1.  **无缝合并**：消除报告间的重复引言和割裂感，将内容融合成一段流畅的文本。\n2.  **保留所有细节**：确保原始报告中提到的所有图片分析和文本要点都被包含在最终版本中。尽可能保留原有的所有文字。\n3.  **单一视角**：最终的输出应该读起来像是对这一个页面的一次性完整分析。\n4.  **Markdown格式**: 使用合适的Markdown标题和格式来组织最终报告。\n\n---\n**来自【"
    ++ unit_identifier ++ "】的多份独立分析报告**:\n" ++ combined_analyses
    ++ "\n---\n请根据以上报告，为【" ++ unit_identifier ++ "】生成最终的、合并后的一份综合性分析。"

def SUMMARIZATION_PROMPT : String :=
  "你是一个专业的文档摘要助手。以下是一份详细的文档分析报告，但它对于最终系统来说太长了。\n你的任务是：\n1.  **精确总结**：将报告内容进行浓缩，同时必须保留所有核心的发现、关键数据、重要结论和图片分析的要点。\n2.  **控制长度**：最终的总结文本**绝对不能**超过8000个字符。\n3.  **保持格式**：尽可能地保留原始报告中的Markdown格式（如标题、列表）以保证可读性。\n\n请开始对下面的报告进行总结：\n---\n"

/-- Direct-mode task construction: for each unit with images, one task per
8-image chunk, `chunk_index` being the chunk's position. -/
def directTasks (units_with_images : List DocumentUnit) : List AnalysisTask :=
  units_with_images.flatMap fun unit =>
    (_chunk_list unit.images 8).enum.map fun p =>
      { prompt := DIRECT_ANALYSIS_PROMPT
        images := p.2
        info := { unit_identifier := unit.unit_identifier, chunk_index := p.1 } }

/-- Aggregate-mode task construction: as direct mode, but the prompt embeds
the unit identifier, the unit's text and the chunk's image count. -/
def aggregateTasks (units_with_images : List DocumentUnit) : List AnalysisTask :=
  units_with_images.flatMap fun unit =>
    (_chunk_list unit.images 8).enum.map fun p =>
      { prompt := stage1Prompt unit.unit_identifier unit.text p.2.length
        images := p.2
        info := { unit_identifier := unit.unit_identifier, chunk_index := p.1 } }

/-- Direct mode, settling one future: `future.result()` on success, the
`f"批次 {chunk_index} 分析失败: {e}"` placeholder on exception; the pair is
what gets appended to `per_unit_analysis_results[unit_identifier]`. -/
def settleDirect (svc : Svc) (t : AnalysisTask) : Nat × String :=
  match svc t.prompt t.images with
  | .ok result => (t.info.chunk_index, result)
  | .error e => (t.info.chunk_index, "批次 " ++ toString t.info.chunk_index ++ " 分析失败: " ++ e)

/-- Aggregate mode, settling one future: the bare result on success, the
`f"分析失败: {e}"` placeholder on exception (the chunk index is discarded). -/
def settleAggregate (svc : Svc) (t : AnalysisTask) : String :=
  match svc t.prompt t.images with
  | .ok result => result
  | .error e => "分析失败: " ++ e

/-- Direct mode: the list `per_unit_analysis_results[id]` after the
`as_completed` loop — the settlements of the tasks of unit `id`, in
completion order. -/
def perUnitDirect (svc : Svc) (order : List AnalysisTask) (id : String) : List (Nat × String) :=
  (order.filter fun t => t.info.unit_identifier == id).map (settleDirect svc)

/-- Aggregate mode: the list `per_unit_analysis_results[id]` after the
`as_completed` loop — bare result strings in completion order. -/
def perUnitAggregate (svc : Svc) (order : List AnalysisTask) (id : String) : List String :=
  (order.filter fun t => t.info.unit_identifier == id).map (settleAggregate svc)

/-- Direct mode, body of the `for unit in document_units` assembly loop:
the parts appended to `final_content_parts` for this unit.
`analyses.sort(key=lambda x: x[0])` is Python's stable sort by key; a stable
sort's output is uniquely determined by comparator and input order, so the
stable `insertionSort` by the first component is extensionally the same
function. -/
def directUnitSection (svc : Svc) (order : List AnalysisTask) (unit : DocumentUnit) :
    List String :=
  let text_part := pyStrip unit.text
  let header := "### " ++ unit.unit_identifier ++ "\n\n"
    ++ (if text_part == "" then "此单元无文本内容。" else text_part)
  if unit.images.isEmpty then [header]
  else
    let analyses := perUnitDirect svc order unit.unit_identifier
    if analyses.isEmpty then [header]
    else
      let sorted := analyses.insertionSort fun a b => a.1 ≤ b.1
      let combined_analysis := pyJoin "\n\n" (sorted.map fun r => r.2)
      [header, "\n--- 图片分析 ---\n\n" ++ combined_analysis]

/-- Direct mode: `final_content_parts` after the assembly loop. -/
def directContentParts (svc : Svc) (order : List AnalysisTask)
    (document_units : List DocumentUnit) : List String :=
  document_units.foldl (fun parts unit => parts ++ directUnitSection svc order unit) []

/-- The `f"### 对 {identifier} 的分析 (聚合失败)…"` header used when the
stage-2 merge call fails. -/
def aggregationErrorHeader (identifier : String) : String :=
  "### 对 " ++ identifier
    ++ " 的分析 (聚合失败)\n\n**错误**: 未能将以下分批报告合并成最终版本。已为您呈现原始报告：\n\n---"

/-- Aggregate mode, body of the `for unit in document_units` assembly loop:
the parts appended to `final_content_parts` for this unit, together with the
merge call (if any) this unit issues. -/
def aggregateUnitSection (svc : Svc) (order : List AnalysisTask) (unit : DocumentUnit) :
    List String × List ModelCall :=
  let identifier := unit.unit_identifier
  if unit.images.isEmpty then
    (if unit.text == "" then [] else ["--- " ++ identifier ++ " (无图片) ---\n" ++ unit.text], [])
  else
    let analyses := perUnitAggregate svc order identifier
    if analyses.length == 1 then
      (["### 对 " ++ identifier ++ " 的分析\n" ++ analyses.headD ""], [])
    else if 1 < analyses.length then
      let combined_analyses := pyJoin "\n\n---\n" analyses
      let final_prompt := stage2Prompt identifier combined_analyses
      let call : ModelCall := { site := CallSite.merge, prompt := final_prompt, images := [] }
      match svc final_prompt [] with
      | .ok aggregated_result => ([aggregated_result], [call])
      | .error _ => ([aggregationErrorHeader identifier ++ "\n\n" ++ combined_analyses], [call])
    else ([], [])

/-- Aggregate mode: `final_content_parts` after the assembly loop, with the
merge calls issued along the way. -/
def aggregateContentParts (svc : Svc) (order : List AnalysisTask)
    (document_units : List DocumentUnit) : List String × List ModelCall :=
  document_units.foldl
    (fun acc unit =>
      let s := aggregateUnitSection svc order unit
      (acc.1 ++ s.1, acc.2 ++ s.2))
    ([], [])

/-- The fixed marker appended by the truncation fallback. -/
def truncationMarker : String := "\n\n[...报告过长且总结失败，已被截断...]"

/-- The final length-budget step on `report_with_separators`: over 8000
characters, one summarization call, trusted on success, truncation to 7990
characters plus the marker on failure; otherwise returned unchanged. -/
def lengthBudget (svc : Svc) (report_with_separators : String) : String × List ModelCall :=
  if 8000 < report_with_separators.length then
    let prompt := SUMMARIZATION_PROMPT ++ report_with_separators
    let call : ModelCall := { site := CallSite.summarize, prompt := prompt, images := [] }
    match svc prompt [] with
    | .ok summarized_report => (summarized_report, [call])
    | .error _ => (String.mk (report_with_separators.data.take 7990) ++ truncationMarker, [call])
  else (report_with_separators, [])

/-- Python `s.split(sep)` for a single-character separator, on the character
list (e.g. `"a.b".split('.') == ["a", "b"]`, `"".split('.') == [""]`). -/
def pySplitChar (sep : Char) (l : List Char) : List (List Char) :=
  l.foldr (fun c acc => if c = sep then [] :: acc else (c :: acc.headD []) :: acc.tail) [[]]

/-- Python `str.lower()` on one character; the pipeline only lowercases file
extensions, which are ASCII, so ASCII case-folding is the relevant case. -/
def pyCharLower (c : Char) : Char :=
  if 'A' ≤ c ∧ c ≤ 'Z' then Char.ofNat (c.toNat + 32) else c

/-- Python `s.lower()`. -/
def pyLower (s : String) : String := String.mk (s.data.map pyCharLower)

/-- `filename.split('.')[-1].lower()`. -/
def fileExt (filename : String) : String :=
  pyLower (String.mk ((pySplitChar '.' filename.data).getLastD []))

/-- `file_ext in ('docx', 'xlsx')`. -/
def is_unpaginated (file_ext : String) : Bool :=
  file_ext == "docx" || file_ext == "xlsx"

/-- `use_direct_output_mode = is_unpaginated or len(units_with_images) <= 10`. -/
def use_direct_output_mode (file_ext : String) (units_with_images : List DocumentUnit) : Bool :=
  is_unpaginated file_ext || decide (units_with_images.length ≤ 10)

/-- The fixed notice returned when the document has no images. -/
def noImagesNotice : String := "文档中未找到图片，返回提取的文本内容。\n\n"

/-- `process_document_images`, from the extracted `document_units` on
(extraction itself uses external parsing libraries and is out of core):
`svc` is the model service, `order` the completion order of the submitted
analysis tasks.  Returns the report together with the log of model calls,
or the `DocumentParsingError` message for an unsupported extension. -/
def process_document_images (svc : Svc) (filename : String)
    (document_units : List DocumentUnit) (order : List AnalysisTask) :
    Except String PipeOut :=
  let file_ext := fileExt filename
  if file_ext ∈ ["pptx", "pdf", "docx", "xlsx"] then
    if document_units.any fun u => !u.images.isEmpty then
      let units_with_images := document_units.filter fun u => !u.images.isEmpty
      let direct := use_direct_output_mode file_ext units_with_images
      let analysisCalls :=
        (if direct then directTasks units_with_images else aggregateTasks units_with_images).map
          fun t => { site := CallSite.analysis, prompt := t.prompt, images := t.images : ModelCall }
      let assembled :=
        if direct then (directContentParts svc order document_units, ([] : List ModelCall))
        else aggregateContentParts svc order document_units
      let initial_report := pyStrip (pyJoin "\n\n" assembled.1)
      let report_with_separators := _add_separators_for_non_ascii initial_report 2000
      let final := lengthBudget svc report_with_separators
      .ok { report := final.1, calls := analysisCalls ++ assembled.2 ++ final.2 }
    else
      .ok { report := noImagesNotice
              ++ pyJoin "\n\n" ((document_units.filter fun u => u.text != "").map
                    fun u => "--- " ++ u.unit_identifier ++ " ---\n" ++ u.text)
            calls := [] }
  else
    .error "不支持的文件类型。当前支持 'pptx', 'pdf', 'docx', 'xlsx'。"

/-- Projects the report out of a pipeline outcome (used to state concrete
facts about runs without binders). -/
def reportOf (r : Except String PipeOut) : String :=
  match r with
  | .ok o => o.report
  | .error e => e

/-- Projects the call log out of a pipeline outcome. -/
def callsOf (r : Except String PipeOut) : List ModelCall :=
  match r with
  | .ok o => o.calls
  | .error _ => []

/-- Specification helper (not from the source): decides whether the scan of
`addSepGo` starting with counter `k` ever fires the insertion. -/
def wouldInsertSep (limit : Nat) : List Char → Nat → Bool
  | [], _ => false
  | c :: rest, k =>
    if 128 ≤ c.toNat then
      if limit ≤ k + 1 then true else wouldInsertSep limit rest (k + 1)
    else wouldInsertSep limit rest 0

/- ------------------------------------------------------------------ -/
/- Helper lemmas                                                      -/
/- ------------------------------------------------------------------ -/

lemma foldl_append_eq_flatMap {α β : Type} (f : α → List β) :
    ∀ (l : List α) (init : List β),
      l.foldl (fun acc x => acc ++ f x) init = init ++ l.flatMap f
  | [], init => by simp
  | x :: rest, init => by
    rw [List.foldl_cons, foldl_append_eq_flatMap f rest, List.flatMap_cons, List.append_assoc]

lemma aggregate_foldl_eq (svc : Svc) (order : List AnalysisTask) :
    ∀ (l : List DocumentUnit) (init : List String × List ModelCall),
      l.foldl (fun acc unit =>
          let s := aggregateUnitSection svc order unit
          (acc.1 ++ s.1, acc.2 ++ s.2)) init
        = (init.1 ++ l.flatMap fun u => (aggregateUnitSection svc order u).1,
           init.2 ++ l.flatMap fun u => (aggregateUnitSection svc order u).2)
  | [], init => by simp
  | x :: rest, init => by
    rw [List.foldl_cons, aggregate_foldl_eq svc order rest, List.flatMap_cons,
      List.flatMap_cons, List.append_assoc, List.append_assoc]

lemma pyJoin_mem_infix (sep : String) :
    ∀ (l : List String), ∀ a ∈ l, a.data <:+: (pyJoin sep l).data := by
  intro l
  induction l with
  | nil => intro a ha; cases ha
  | cons x rest ih =>
    intro a ha
    rcases List.mem_cons.mp ha with rfl | ha'
    · cases rest with
      | nil => exact ⟨[], [], by simp [pyJoin]⟩
      | cons y t =>
        refine ⟨[], (sep ++ pyJoin sep (y :: t)).data, ?_⟩
        simp [pyJoin, String.data_append]
    · cases rest with
      | nil => cases ha'
      | cons y t =>
        obtain ⟨s₁, s₂, hs⟩ := ih a ha'
        refine ⟨(x ++ sep).data ++ s₁, s₂, ?_⟩
        simp only [pyJoin, String.data_append, List.append_assoc] at hs ⊢
        rw [hs]

lemma chunkListFuel_congr (size : Nat) (hsize : size ≠ 0) :
    ∀ (f₁ : Nat) (l : List Blob) (f₂ : Nat), l.length ≤ f₁ → l.length ≤ f₂ →
      chunkListFuel size f₁ l = chunkListFuel size f₂ l := by
  intro f₁
  induction f₁ with
  | zero =>
    intro l f₂ h1 _
    have hnil : l = [] := List.eq_nil_of_length_eq_zero (Nat.le_zero.mp h1)
    subst hnil
    cases f₂ <;> rfl
  | succ f ih =>
    intro l f₂ h1 h2
    cases l with
    | nil => cases f₂ <;> rfl
    | cons a rest =>
      cases f₂ with
      | zero => simp at h2
      | succ g =>
        simp only [chunkListFuel, if_neg hsize]
        congr 1
        apply ih
        · simp at h1 ⊢; omega
        · simp at h2 ⊢; omega

lemma _chunk_list_nil (size : Nat) : _chunk_list [] size = [] := rfl

lemma _chunk_list_cons (size : Nat) (hsize : size ≠ 0) (a : Blob) (rest : List Blob) :
    _chunk_list (a :: rest) size
      = (a :: rest).take size :: _chunk_list ((a :: rest).drop size) size := by
  unfold _chunk_list
  show chunkListFuel size (rest.length + 1) (a :: rest) = _
  simp only [chunkListFuel, if_neg hsize]
  congr 1
  exact chunkListFuel_congr size hsize rest.length _ _ (by simp; omega) le_rfl

lemma chunk_flatten : ∀ (l : List Blob), (_chunk_list l 8).flatten = l
  | [] => by simp [_chunk_list_nil]
  | a :: rest => by
    rw [_chunk_list_cons 8 (by omega), List.flatten_cons,
      chunk_flatten ((a :: rest).drop 8), List.take_append_drop]
termination_by l => l.length
decreasing_by simp; omega

lemma chunk_length : ∀ (l : List Blob), (_chunk_list l 8).length = (l.length + 7) / 8
  | [] => by simp [_chunk_list_nil]
  | a :: rest => by
    rw [_chunk_list_cons 8 (by omega), List.length_cons,
      chunk_length ((a :: rest).drop 8)]
    simp only [List.length_drop, List.length_cons]
    omega
termination_by l => l.length
decreasing_by simp; omega

lemma chunk_sizes : ∀ (l : List Blob), ∀ c ∈ _chunk_list l 8, c.length ≤ 8 ∧ c ≠ []
  | [] => by simp [_chunk_list_nil]
  | a :: rest => by
    intro c hc
    rw [_chunk_list_cons 8 (by omega)] at hc
    rcases List.mem_cons.mp hc with rfl | hc'
    · constructor
      · simp
      · simp
    · exact chunk_sizes ((a :: rest).drop 8) c hc'
termination_by l => l.length
decreasing_by simp; omega

lemma addSepGo_eq_of_not_insert (limit : Nat) :
    ∀ (l : List Char) (k : Nat), wouldInsertSep limit l k = false → addSepGo limit l k = l := by
  intro l
  induction l with
  | nil => intro k _; rfl
  | cons c rest ih =>
    intro k h
    rw [wouldInsertSep] at h
    rw [addSepGo]
    by_cases h1 : 128 ≤ c.toNat
    · rw [if_pos h1] at h ⊢
      by_cases h2 : limit ≤ k + 1
      · rw [if_pos h2] at h; cases h
      · rw [if_neg h2] at h ⊢; rw [ih _ h]
    · rw [if_neg h1] at h ⊢; rw [ih _ h]

lemma run_of_insert (limit : Nat) (hpos : 0 < limit) :
    ∀ (l : List Char) (k : Nat), k < limit → wouldInsertSep limit l k = true →
      (∃ p s', l = p ++ s' ∧ p.length + k = limit ∧ ∀ c ∈ p, 128 ≤ c.toNat) ∨
      (∃ l₁ l₂ l₃, l = l₁ ++ l₂ ++ l₃ ∧ l₂.length = limit ∧ ∀ c ∈ l₂, 128 ≤ c.toNat) := by
  intro l
  induction l with
  | nil => intro k _ h; cases h
  | cons c rest ih =>
    intro k hk h
    rw [wouldInsertSep] at h
    by_cases h1 : 128 ≤ c.toNat
    · rw [if_pos h1] at h
      by_cases h2 : limit ≤ k + 1
      · left
        refine ⟨[c], rest, rfl, by simp; omega, ?_⟩
        intro x hx
        rcases List.mem_singleton.mp hx with rfl
        exact h1
      · rw [if_neg h2] at h
        rcases ih (k + 1) (by omega) h with ⟨p, s', heq, hlen, hna⟩ | ⟨l₁, l₂, l₃, heq, hlen, hna⟩
        · left
          refine ⟨c :: p, s', by rw [heq]; rfl, by simp; omega, ?_⟩
          intro x hx
          rcases List.mem_cons.mp hx with rfl | hx'
          · exact h1
          · exact hna x hx'
        · right
          exact ⟨c :: l₁, l₂, l₃, by rw [heq]; rfl, hlen, hna⟩
    · rw [if_neg h1] at h
      rcases ih 0 hpos h with ⟨p, s', heq, hlen, hna⟩ | ⟨l₁, l₂, l₃, heq, hlen, hna⟩
      · right
        exact ⟨[c], p, s', by rw [heq]; rfl, by omega, hna⟩
      · right
        exact ⟨c :: l₁, l₂, l₃, by rw [heq]; rfl, hlen, hna⟩

lemma sublist_addSepGo (limit : Nat) :
    ∀ (l : List Char) (k : Nat), l.Sublist (addSepGo limit l k) := by
  intro l
  induction l with
  | nil => intro k; simp [addSepGo]
  | cons c rest ih =>
    intro k
    rw [addSepGo]
    by_cases h1 : 128 ≤ c.toNat
    · rw [if_pos h1]
      by_cases h2 : limit ≤ k + 1
      · rw [if_pos h2]
        exact List.Sublist.cons₂ c ((ih 0).trans (List.sublist_append_right _ _))
      · rw [if_neg h2]
        exact List.Sublist.cons₂ c (ih (k + 1))
    · rw [if_neg h1]
      exact List.Sublist.cons₂ c (ih 0)

lemma addSepGo_replicate_no_cross (c : Char) (hc : 128 ≤ c.toNat) (limit : Nat) :
    ∀ (n k : Nat), k + n < limit →
      addSepGo limit (List.replicate n c) k = List.replicate n c := by
  intro n
  induction n with
  | zero => intro k _; rfl
  | succ m ih =>
    intro k h
    rw [List.replicate_succ, addSepGo, if_pos hc, if_neg (by omega)]
    rw [ih (k + 1) (by omega)]

lemma addSepGo_replicate_cross (c : Char) (hc : 128 ≤ c.toNat) (limit : Nat) :
    ∀ (n k : Nat), k < limit → limit ≤ k + n →
      addSepGo limit (List.replicate n c) k
        = List.replicate (limit - k) c
            ++ ("\n----\n".data ++ addSepGo limit (List.replicate (n - (limit - k)) c) 0) := by
  intro n
  induction n with
  | zero => intro k h1 h2; omega
  | succ m ih =>
    intro k h1 h2
    rw [List.replicate_succ, addSepGo, if_pos hc]
    by_cases hfire : limit ≤ k + 1
    · rw [if_pos hfire]
      have e2 : m + 1 - (limit - k) = m := by omega
      have e1 : limit - k = 1 := by omega
      rw [e2, e1]
      rfl
    · rw [if_neg hfire, ih (k + 1) (by omega) (by omega)]
      have e2 : m + 1 - (limit - k) = m - (limit - (k + 1)) := by omega
      have e1 : limit - k = (limit - (k + 1)) + 1 := by omega
      rw [e2, e1, List.replicate_succ]
      rfl

/- ------------------------------------------------------------------ -/
/- Concrete stubbed scenarios                                         -/
/- ------------------------------------------------------------------ -/

/-- A deterministic stub service: answers an analysis call with the id of the
first image of the batch; raises (message "X") on every image-less call,
i.e. on merge and summarization calls. -/
def svcOkHead : Svc := fun _ imgs =>
  match imgs with
  | [] => Except.error "X"
  | i :: _ => Except.ok (toString i)

/-- A deterministic stub service that raises "boom" exactly on the batch
whose images are `[9]` and answers every other analysis call. -/
def svcFail9 : Svc := fun _ imgs =>
  match imgs with
  | [] => Except.error "X"
  | [9] => Except.error "boom"
  | i :: _ => Except.ok (toString i)

/-- A pdf-style document with 11 image-bearing units (forcing aggregate
mode); the first unit has 9 images and hence two batches. -/
def unitsAgg : List DocumentUnit :=
  { unit_identifier := "P1", text := "", images := [1, 2, 3, 4, 5, 6, 7, 8, 9] } ::
  ((List.range 10).map fun k =>
    { unit_identifier := "Q" ++ toString k, text := "", images := [100 + k] })

/-- The image-bearing units of `unitsAgg` (all of them). -/
def uwiAgg : List DocumentUnit := unitsAgg.filter fun u => !u.images.isEmpty

/-- Exchanges the first two completions, leaving the task multiset intact. -/
def swapFirstTwo : List AnalysisTask → List AnalysisTask
  | a :: b :: rest => b :: a :: rest
  | l => l

/-- A docx-style document made of one unit with 9 images (two batches,
direct mode because docx is unpaginated). -/
def unitD9 : DocumentUnit :=
  { unit_identifier := "文档内容", text := "t", images := [1, 2, 3, 4, 5, 6, 7, 8, 9] }

/-- A pdf-style document with 11 image-bearing units (aggregate mode), the
first of which carries text "ZZZZ", plus a final unit "QQQQ" with neither
images nor text. -/
def unitsAsm : List DocumentUnit :=
  ({ unit_identifier := "A0", text := "ZZZZ", images := [200] } ::
    ((List.range 10).map fun k =>
      { unit_identifier := "B" ++ toString k, text := "", images := [210 + k] }))
  ++ [{ unit_identifier := "QQQQ", text := "", images := [] }]

/-- The image-bearing units of `unitsAsm`. -/
def uwiAsm : List DocumentUnit := unitsAsm.filter fun u => !u.images.isEmpty

/-- The direct-mode run on `unitD9` (svc answers every batch, completion in
submission order). -/
def runDirect9 : Except String PipeOut :=
  process_document_images svcOkHead "report.docx" [unitD9] (directTasks [unitD9])

/-- The aggregate-mode run on `unitsAgg` (svc answers every analysis batch
and fails merge/summarization calls, completion in submission order). -/
def runAgg : Except String PipeOut :=
  process_document_images svcOkHead "doc.pdf" unitsAgg (aggregateTasks uwiAgg)

/- ------------------------------------------------------------------ -/
/- Claim theorems                                                     -/
/- ------------------------------------------------------------------ -/

set_option maxRecDepth 4000 in
/-- C1 (refuted — the code violates the claim): in aggregate mode the
per-unit batch results are appended in completion order and never re-sorted
by batch index, so permuting the completion order of the two batches of unit
"P1" changes the final report: the two runs below differ only in the
completion order (`swapFirstTwo` permutes the same task list, first
conjunct) yet produce different reports. -/
theorem aggregate_report_depends_on_completion_order :
    (aggregateTasks uwiAgg).Perm (swapFirstTwo (aggregateTasks uwiAgg)) ∧
    reportOf (process_document_images svcOkHead "doc.pdf" unitsAgg (aggregateTasks uwiAgg)) ≠
      reportOf (process_document_images svcOkHead "doc.pdf" unitsAgg
        (swapFirstTwo (aggregateTasks uwiAgg))) := by
  constructor
  · decide
  · decide

/-- C2: if no extracted unit contains an image, the pipeline makes no model
calls and returns exactly the fixed no-images notice followed by, for each
unit with non-empty text in extraction order, that unit's text prefixed by
its identifier; units with empty text are omitted. -/
theorem no_images_skips_analysis (svc : Svc) (filename : String)
    (document_units : List DocumentUnit) (order : List AnalysisTask)
    (hext : fileExt filename ∈ ["pptx", "pdf", "docx", "xlsx"])
    (h : ∀ u ∈ document_units, u.images = []) :
    process_document_images svc filename document_units order =
      .ok { report := noImagesNotice ++ pyJoin "\n\n"
                ((document_units.filter fun u => u.text != "").map
                  fun u => "--- " ++ u.unit_identifier ++ " ---\n" ++ u.text)
            calls := [] } := by
  have hany : (document_units.any fun u => !u.images.isEmpty) = false := by
    rw [List.any_eq_false]
    intro u hu
    simp [h u hu]
  unfold process_document_images
  rw [if_pos hext, if_neg (by simp [hany])]

/-- C2 witness: a two-unit pptx document with no images, one unit with empty
text. -/
theorem no_images_skips_analysis_witness :
    process_document_images svcOkHead "slides.pptx"
        [{ unit_identifier := "幻灯片 1", text := "hello", images := [] },
         { unit_identifier := "幻灯片 2", text := "", images := [] }] [] =
      .ok { report := "文档中未找到图片，返回提取的文本内容。\n\n--- 幻灯片 1 ---\nhello"
            calls := [] } := by
  have := no_images_skips_analysis svcOkHead "slides.pptx"
    [{ unit_identifier := "幻灯片 1", text := "hello", images := [] },
     { unit_identifier := "幻灯片 2", text := "", images := [] }] []
    (by decide) (by decide)
  rw [this]
  rfl

/-- C3: with at least one image-bearing unit, a docx/xlsx (unpaginated)
document always selects direct mode; a pptx/pdf (paginated) document selects
direct mode iff the number of image-bearing units is at most 10, aggregate
mode otherwise. -/
theorem mode_selection_policy (file_ext : String) (units_with_images : List DocumentUnit)
    (_hU : 1 ≤ units_with_images.length) :
    ((file_ext = "docx" ∨ file_ext = "xlsx") →
      use_direct_output_mode file_ext units_with_images = true) ∧
    ((file_ext = "pptx" ∨ file_ext = "pdf") →
      (units_with_images.length ≤ 10 →
        use_direct_output_mode file_ext units_with_images = true) ∧
      (10 < units_with_images.length →
        use_direct_output_mode file_ext units_with_images = false)) := by
  constructor
  · rintro (rfl | rfl) <;> simp [use_direct_output_mode, is_unpaginated]
  · rintro (rfl | rfl) <;>
      exact ⟨fun hle => by simp [use_direct_output_mode, is_unpaginated, hle],
             fun hgt => by simp [use_direct_output_mode, is_unpaginated]; omega⟩

/-- C3 witness: a single-image-unit docx and pptx, and an 11-unit pptx. -/
theorem mode_selection_policy_witness :
    use_direct_output_mode "docx" [unitD9] = true ∧
    use_direct_output_mode "pptx" [unitD9] = true ∧
    use_direct_output_mode "pdf" uwiAgg = false := by
  refine ⟨(mode_selection_policy "docx" [unitD9] (by decide)).1 (Or.inl rfl),
    ((mode_selection_policy "pptx" [unitD9] (by decide)).2 (Or.inl rfl)).1 (by decide),
    ((mode_selection_policy "pdf" uwiAgg (by decide)).2 (Or.inr rfl)).2 (by decide)⟩

/-- C6: the length-budget step returns a string of at most 8000 characters
unchanged with no call; over 8000 characters it issues exactly one
summarization call, returns its output verbatim on success, and on failure
returns the first 7990 characters followed by the fixed truncation marker,
for a total length of at most 7990 plus the marker's length. -/
theorem length_budget_enforcement (svc : Svc) (s : String) :
    (s.length ≤ 8000 → lengthBudget svc s = (s, [])) ∧
    (8000 < s.length →
      (lengthBudget svc s).2 =
        [{ site := CallSite.summarize, prompt := SUMMARIZATION_PROMPT ++ s, images := [] }] ∧
      (∀ r, svc (SUMMARIZATION_PROMPT ++ s) [] = .ok r → (lengthBudget svc s).1 = r) ∧
      (∀ e, svc (SUMMARIZATION_PROMPT ++ s) [] = .error e →
        (lengthBudget svc s).1 = String.mk (s.data.take 7990) ++ truncationMarker ∧
        (lengthBudget svc s).1.length ≤ 7990 + truncationMarker.length)) := by
  constructor
  · intro hle
    rw [lengthBudget, if_neg (by omega)]
  · intro hgt
    have hlen : (String.mk (s.data.take 7990) ++ truncationMarker).length ≤
        7990 + truncationMarker.length := by
      rw [String.length_append, String.length_mk, List.length_take]
      have := Nat.min_le_left 7990 s.data.length
      omega
    cases hsvc : svc (SUMMARIZATION_PROMPT ++ s) [] with
    | ok r =>
      have heq : lengthBudget svc s =
          (r, [{ site := CallSite.summarize, prompt := SUMMARIZATION_PROMPT ++ s, images := [] }]) := by
        rw [lengthBudget, if_pos hgt]
        simp only [hsvc]
      refine ⟨by rw [heq], fun r' hr' => ?_, fun e' he' => ?_⟩
      · injection hr' with h; subst h; rw [heq]
      · cases he'
    | error e =>
      have heq : lengthBudget svc s =
          (String.mk (s.data.take 7990) ++ truncationMarker,
           [{ site := CallSite.summarize, prompt := SUMMARIZATION_PROMPT ++ s, images := [] }]) := by
        rw [lengthBudget, if_pos hgt]
        simp only [hsvc]
      refine ⟨by rw [heq], fun r' hr' => ?_, fun e' he' => ?_⟩
      · cases hr'
      · rw [heq]
        exact ⟨rfl, hlen⟩

/-- C6 witness: a short string is returned unchanged, and a 9000-character
string under the always-failing service ends up at most 7990 characters plus
the marker long. -/
theorem length_budget_enforcement_witness :
    lengthBudget svcOkHead "short" = ("short", []) ∧
    (lengthBudget (fun _ _ => Except.error "X") (String.mk (List.replicate 9000 'a'))).1.length
      ≤ 7990 + truncationMarker.length := by
  constructor
  · exact (length_budget_enforcement svcOkHead "short").1 (by decide)
  · exact (((length_budget_enforcement (fun _ _ => Except.error "X")
      (String.mk (List.replicate 9000 'a'))).2
      (by rw [String.length_mk, List.length_replicate]; omega)).2.2 "X" rfl).2

/-- C5: the separator pass on 5000 identical non-ASCII characters ('汉',
code point 27721 ≥ 128) inserts exactly two "\n----\n" separators, one after
the 2000th and one after the 4000th character, leaving the trailing run of
1000 characters untouched. -/
theorem separator_insertion_5000 :
    _add_separators_for_non_ascii (String.mk (List.replicate 5000 '汉')) 2000 =
      String.mk (List.replicate 2000 '汉'
        ++ ("\n----\n".data
          ++ (List.replicate 2000 '汉' ++ ("\n----\n".data ++ List.replicate 1000 '汉')))) := by
  have hc : 128 ≤ '汉'.toNat := by decide
  have h1 := addSepGo_replicate_cross '汉' hc 2000 5000 0 (by omega) (by omega)
  have h2 := addSepGo_replicate_cross '汉' hc 2000 3000 0 (by omega) (by omega)
  have h3 := addSepGo_replicate_no_cross '汉' hc 2000 1000 0 (by omega)
  norm_num at h1 h2
  have hdata : addSepGo 2000 (List.replicate 5000 '汉') 0
      = List.replicate 2000 '汉'
        ++ ("\n----\n".data
          ++ (List.replicate 2000 '汉' ++ ("\n----\n".data ++ List.replicate 1000 '汉'))) := by
    rw [h1, h2, h3]
    rfl
  exact congrArg String.mk hdata

set_option maxRecDepth 4000 in
/-- C4: the batch planner partitions a unit's image sequence into
`ceil(n/8)` consecutive order-preserving batches of at most 8 (non-empty)
images, with `batch_index` equal to the batch's position starting at 0 (in
both modes); a unit with 8 images yields one batch and a unit with 9 images
yields two; concretely, the 9-image direct-mode docx run issues 2 analysis
calls and no merge call, while the aggregate-mode run (whose only
multi-batch unit is the 9-image "P1") issues exactly one merge call. -/
theorem batch_planning (l : List Blob) (u : DocumentUnit) :
    ((_chunk_list l 8).flatten = l) ∧
    ((_chunk_list l 8).length = (l.length + 7) / 8) ∧
    (∀ c ∈ _chunk_list l 8, c.length ≤ 8 ∧ c ≠ []) ∧
    ((directTasks [u]).map (fun t => t.info)
      = (List.range (_chunk_list u.images 8).length).map
          fun i => { unit_identifier := u.unit_identifier, chunk_index := i }) ∧
    ((aggregateTasks [u]).map (fun t => t.info)
      = (List.range (_chunk_list u.images 8).length).map
          fun i => { unit_identifier := u.unit_identifier, chunk_index := i }) ∧
    ((_chunk_list [1, 2, 3, 4, 5, 6, 7, 8] 8).length = 1) ∧
    ((_chunk_list [1, 2, 3, 4, 5, 6, 7, 8, 9] 8).length = 2) ∧
    ((callsOf runDirect9).countP (fun c => c.site == CallSite.analysis) = 2) ∧
    ((callsOf runDirect9).countP (fun c => c.site == CallSite.merge) = 0) ∧
    ((callsOf runAgg).countP (fun c => c.site == CallSite.merge) = 1) := by
  have henum : ∀ (id2 : String) (L : List (List Blob)),
      (L.enum.map fun p => ({ unit_identifier := id2, chunk_index := p.1 } : TaskInfo))
        = (List.range L.length).map
            fun i => ({ unit_identifier := id2, chunk_index := i } : TaskInfo) := by
    intro id2 L
    rw [← List.enum_map_fst, List.map_map]
    rfl
  refine ⟨chunk_flatten l, chunk_length l, chunk_sizes l, ?_, ?_, by decide, by decide,
    by decide, by decide, by decide⟩
  · rw [show directTasks [u]
        = (_chunk_list u.images 8).enum.map fun p =>
            ({ prompt := DIRECT_ANALYSIS_PROMPT, images := p.2,
               info := { unit_identifier := u.unit_identifier, chunk_index := p.1 } }
              : AnalysisTask)
      by simp [directTasks]]
    rw [List.map_map]
    exact henum u.unit_identifier (_chunk_list u.images 8)
  · rw [show aggregateTasks [u]
        = (_chunk_list u.images 8).enum.map fun p =>
            ({ prompt := stage1Prompt u.unit_identifier u.text p.2.length, images := p.2,
               info := { unit_identifier := u.unit_identifier, chunk_index := p.1 } }
              : AnalysisTask)
      by simp [aggregateTasks]]
    rw [List.map_map]
    exact henum u.unit_identifier (_chunk_list u.images 8)

/-- C4 witness: the general clauses applied at a concrete 9-image list and a
member batch. -/
theorem batch_planning_witness :
    (_chunk_list [1, 2, 3, 4, 5, 6, 7, 8, 9] 8).flatten = [1, 2, 3, 4, 5, 6, 7, 8, 9] ∧
    (([9] : List Blob).length ≤ 8 ∧ ([9] : List Blob) ≠ []) :=
  ⟨(batch_planning [1, 2, 3, 4, 5, 6, 7, 8, 9] unitD9).1,
   (batch_planning [1, 2, 3, 4, 5, 6, 7, 8, 9] unitD9).2.2.1 [9] (by decide)⟩

/-- C10: the separator pass returns any string without a run of 2000
consecutive non-ASCII characters unchanged, and on every input the original
character sequence is a subsequence of the output (the pass only inserts,
never deletes or changes characters). -/
theorem separator_pass_conservative (s : String) :
    ((¬ ∃ l₁ l₂ l₃, s.data = l₁ ++ l₂ ++ l₃ ∧ l₂.length = 2000 ∧ ∀ c ∈ l₂, 128 ≤ c.toNat) →
      _add_separators_for_non_ascii s 2000 = s) ∧
    s.data.Sublist (_add_separators_for_non_ascii s 2000).data := by
  constructor
  · intro h
    cases hw : wouldInsertSep 2000 s.data 0 with
    | false =>
      unfold _add_separators_for_non_ascii
      rw [addSepGo_eq_of_not_insert 2000 s.data 0 hw]
    | true =>
      exfalso
      rcases run_of_insert 2000 (by omega) s.data 0 (by omega) hw with
        ⟨p, s', heq, hlen, hna⟩ | ⟨l₁, l₂, l₃, heq, hlen, hna⟩
      · exact h ⟨[], p, s', by simpa using heq, by omega, hna⟩
      · exact h ⟨l₁, l₂, l₃, heq, hlen, hna⟩
  · exact sublist_addSepGo 2000 s.data 0

/-- C8: in aggregate mode, when a unit has more than one batch result and
its single merge call fails, the unit's section becomes the visible
merge-failed header followed by the concatenation of all raw batch reports
(one merge call is still recorded, and no exception escapes — the section is
an ordinary value); every batch report occurs verbatim inside the emitted
section, so no content is dropped. -/
theorem merge_failure_degrades_to_concatenation (svc : Svc) (order : List AnalysisTask)
    (unit : DocumentUnit) (e : String)
    (him : unit.images ≠ [])
    (hlen : 1 < (perUnitAggregate svc order unit.unit_identifier).length)
    (hfail : svc (stage2Prompt unit.unit_identifier
        (pyJoin "\n\n---\n" (perUnitAggregate svc order unit.unit_identifier))) [] =
      .error e) :
    aggregateUnitSection svc order unit =
      ([aggregationErrorHeader unit.unit_identifier ++ "\n\n"
          ++ pyJoin "\n\n---\n" (perUnitAggregate svc order unit.unit_identifier)],
       [{ site := CallSite.merge
          prompt := stage2Prompt unit.unit_identifier
            (pyJoin "\n\n---\n" (perUnitAggregate svc order unit.unit_identifier))
          images := [] }]) ∧
    ∀ a ∈ perUnitAggregate svc order unit.unit_identifier,
      a.data <:+: (aggregationErrorHeader unit.unit_identifier ++ "\n\n"
          ++ pyJoin "\n\n---\n" (perUnitAggregate svc order unit.unit_identifier)).data := by
  have hne : unit.images.isEmpty = false := by
    cases hi : unit.images with
    | nil => exact absurd hi him
    | cons a l => rfl
  have hone : ((perUnitAggregate svc order unit.unit_identifier).length == 1) = false := by
    simp only [beq_eq_false_iff_ne, ne_eq]
    omega
  constructor
  · simp only [aggregateUnitSection, hne, hone, hlen, hfail, Bool.false_eq_true, if_false,
      if_true, ite_true, ite_false]
  · intro a ha
    obtain ⟨s₁, s₂, hs⟩ :=
      pyJoin_mem_infix "\n\n---\n" (perUnitAggregate svc order unit.unit_identifier) a ha
    refine ⟨(aggregationErrorHeader unit.unit_identifier ++ "\n\n").data ++ s₁, s₂, ?_⟩
    simp only [String.data_append, List.append_assoc]
    rw [← hs]
    simp [List.append_assoc]

set_option maxRecDepth 4000 in
/-- C8 witness: the 9-image unit "P1" of the aggregate scenario: its merge
call fails ("X"), so the section is the failure header plus both raw batch
reports. -/
theorem merge_failure_degrades_to_concatenation_witness :
    aggregateUnitSection svcOkHead (aggregateTasks uwiAgg)
        { unit_identifier := "P1", text := "", images := [1, 2, 3, 4, 5, 6, 7, 8, 9] } =
      ([aggregationErrorHeader "P1" ++ "\n\n"
          ++ pyJoin "\n\n---\n" (perUnitAggregate svcOkHead (aggregateTasks uwiAgg) "P1")],
       [{ site := CallSite.merge
          prompt := stage2Prompt "P1"
            (pyJoin "\n\n---\n" (perUnitAggregate svcOkHead (aggregateTasks uwiAgg) "P1"))
          images := [] }]) :=
  (merge_failure_degrades_to_concatenation svcOkHead (aggregateTasks uwiAgg)
    { unit_identifier := "P1", text := "", images := [1, 2, 3, 4, 5, 6, 7, 8, 9] } "X"
    (by decide) (by decide) rfl).1

set_option maxRecDepth 4000 in
/-- C7 counterexample: the aggregate-mode placeholder for a failing batch is
`"分析失败: <reason>"`; for the task of unit "P1" with `batch_index = 1`
(a genuine submitted task, first conjunct) the recorded entry contains no
digit at all, so it does not identify the failing batch's index, refuting
the claim that the placeholder identifies the batch in both modes. -/
theorem aggregate_placeholder_lacks_batch_index :
    ({ prompt := stage1Prompt "P1" "" 1, images := [9],
       info := { unit_identifier := "P1", chunk_index := 1 } } : AnalysisTask)
      ∈ aggregateTasks uwiAgg ∧
    perUnitAggregate svcFail9 (aggregateTasks uwiAgg) "P1" = ["1", "分析失败: boom"] ∧
    (("分析失败: boom" : String).data.all fun c => !c.isDigit) = true := by
  refine ⟨by decide, by decide, by decide⟩

/-- C7 (amended): a failing task's entry is a textual placeholder carrying
the failure reason — with the batch index in direct mode
(`"批次 i 分析失败: e"`), without it in aggregate mode (`"分析失败: e"`);
the failure is absorbed into the entry (settling is a total function), every
task of a unit contributes exactly one entry to that unit's result list, and
a task's entry depends only on its own call's outcome, so one task's failure
neither removes nor alters any other task's result. -/
theorem failure_isolation_placeholders (svc svc' : Svc) (t u : AnalysisTask)
    (order : List AnalysisTask) (e : String)
    (hfail : svc t.prompt t.images = .error e)
    (hagree : svc u.prompt u.images = svc' u.prompt u.images) :
    settleDirect svc t = (t.info.chunk_index,
      "批次 " ++ toString t.info.chunk_index ++ " 分析失败: " ++ e) ∧
    settleAggregate svc t = "分析失败: " ++ e ∧
    settleDirect svc u = settleDirect svc' u ∧
    settleAggregate svc u = settleAggregate svc' u ∧
    (∀ id, (perUnitDirect svc order id).length =
        (order.filter fun x => x.info.unit_identifier == id).length) ∧
    (∀ id, (perUnitAggregate svc order id).length =
        (order.filter fun x => x.info.unit_identifier == id).length) := by
  refine ⟨?_, ?_, ?_, ?_, fun id => by simp [perUnitDirect],
    fun id => by simp [perUnitAggregate]⟩
  · unfold settleDirect
    rw [hfail]
  · unfold settleAggregate
    rw [hfail]
  · unfold settleDirect
    rw [hagree]
  · unfold settleAggregate
    rw [hagree]

/-- C7 witness: the failing `[9]` batch settles to the two placeholder
shapes under `svcFail9`. -/
theorem failure_isolation_placeholders_witness :
    settleDirect svcFail9
        { prompt := DIRECT_ANALYSIS_PROMPT, images := [9],
          info := { unit_identifier := "P1", chunk_index := 1 } } =
      (1, "批次 1 分析失败: boom") ∧
    settleAggregate svcFail9
        { prompt := DIRECT_ANALYSIS_PROMPT, images := [9],
          info := { unit_identifier := "P1", chunk_index := 1 } } = "分析失败: boom" := by
  have h := failure_isolation_placeholders svcFail9 svcOkHead
    { prompt := DIRECT_ANALYSIS_PROMPT, images := [9],
      info := { unit_identifier := "P1", chunk_index := 1 } }
    { prompt := DIRECT_ANALYSIS_PROMPT, images := [1],
      info := { unit_identifier := "Q0", chunk_index := 0 } }
    [] "boom" rfl rfl
  exact ⟨h.1.trans (by decide), h.2.1.trans (by decide)⟩

set_option maxRecDepth 4000 in
/-- C9 counterexample: in aggregate mode a unit with neither images nor text
("QQQQ", a member of the document, first conjunct) produces no section at
all — its identifier never appears in the report — and a unit with images
("A0", text "ZZZZ") contributes only its analysis section, so its own text
does not appear either; both refute the claim that every unit's section
carries its identifier and its text or a no-text placeholder in both
modes. -/
theorem aggregate_assembler_omits_units :
    ({ unit_identifier := "QQQQ", text := "", images := [] } : DocumentUnit) ∈ unitsAsm ∧
    ({ unit_identifier := "A0", text := "ZZZZ", images := [200] } : DocumentUnit) ∈ unitsAsm ∧
    decide (("QQQQ" : String).data <:+:
      (reportOf (process_document_images svcOkHead "b.pdf" unitsAsm
        (aggregateTasks uwiAsm))).data) = false ∧
    decide (("ZZZZ" : String).data <:+:
      (reportOf (process_document_images svcOkHead "b.pdf" unitsAsm
        (aggregateTasks uwiAsm))).data) = false := by
  refine ⟨by decide, by decide, by decide, by decide⟩

/-- C9 (amended): both assemblers iterate units in original extraction order
(each unit's parts appear in place, via the `flatMap` decompositions); in
direct mode every unit yields a non-empty section whose first part begins
with the `"### <identifier>"` header (text or no-text placeholder included),
but in aggregate mode a unit without images yields its text section only
when the text is non-empty — an image-less empty-text unit is omitted
entirely — and a unit with images contributes only its analysis parts. -/
theorem assembler_structure (svc : Svc) (order : List AnalysisTask)
    (units : List DocumentUnit) (unit : DocumentUnit) :
    (directContentParts svc order units = units.flatMap (directUnitSection svc order)) ∧
    ((aggregateContentParts svc order units).1
        = units.flatMap fun u => (aggregateUnitSection svc order u).1) ∧
    ((aggregateContentParts svc order units).2
        = units.flatMap fun u => (aggregateUnitSection svc order u).2) ∧
    (directUnitSection svc order unit ≠ []) ∧
    (("### " ++ unit.unit_identifier ++ "\n\n").data <+:
      ((directUnitSection svc order unit).headD "").data) ∧
    (unit.images = [] → unit.text = "" → aggregateUnitSection svc order unit = ([], [])) ∧
    (unit.images = [] → unit.text ≠ "" →
      aggregateUnitSection svc order unit
        = (["--- " ++ unit.unit_identifier ++ " (无图片) ---\n" ++ unit.text], [])) := by
  have hpre : ∀ (X : String),
      ("### " ++ unit.unit_identifier ++ "\n\n").data <+:
        ("### " ++ unit.unit_identifier ++ "\n\n" ++ X).data :=
    fun X => ⟨X.data, (String.data_append _ X).symm⟩
  refine ⟨?_, ?_, ?_, ?_, ?_, ?_, ?_⟩
  · rw [directContentParts, foldl_append_eq_flatMap]
    rfl
  · rw [aggregateContentParts, aggregate_foldl_eq]
    rfl
  · rw [aggregateContentParts, aggregate_foldl_eq]
    rfl
  · unfold directUnitSection
    dsimp only
    split
    · simp
    · split <;> simp
  · unfold directUnitSection
    dsimp only
    split
    · exact hpre _
    · split
      · exact hpre _
      · exact hpre _
  · intro h1 h2
    simp [aggregateUnitSection, h1, h2]
  · intro h1 h2
    simp [aggregateUnitSection, h1, h2]

/-- C9 amended witness: the flatMap decompositions at a concrete document
and the omission of an image-less empty-text unit. -/
theorem assembler_structure_witness :
    directContentParts svcOkHead [] [unitD9]
      = [unitD9].flatMap (directUnitSection svcOkHead []) ∧
    aggregateUnitSection svcOkHead []
        { unit_identifier := "QQQQ", text := "", images := [] } = ([], []) := by
  have h := assembler_structure svcOkHead [] [unitD9]
    { unit_identifier := "QQQQ", text := "", images := [] }
  exact ⟨h.1, h.2.2.2.2.2.1 rfl rfl⟩

/-- C10 witness: a short mixed string (no 2000-run) is returned unchanged
and is a subsequence of the output. -/
theorem separator_pass_conservative_witness :
    _add_separators_for_non_ascii "abc汉" 2000 = "abc汉" ∧
    ("abc汉" : String).data.Sublist (_add_separators_for_non_ascii "abc汉" 2000).data := by
  refine ⟨(separator_pass_conservative "abc汉").1 ?_, (separator_pass_conservative "abc汉").2⟩
  rintro ⟨l₁, l₂, l₃, heq, hlen, -⟩
  have h4 : ("abc汉" : String).data.length = 4 := by decide
  rw [heq] at h4
  simp [List.length_append] at h4
  omega

end DocumentParser
